import Mathlib

/-!
Shallow embedding of the voice-management and signal-routing engine of
`src/components/Synth.js` (hello-synthesizer).

The engine is single-threaded and event-driven, so it is modelled as a pure
state machine: the mutable refs and React state of the `Synth` component become
the fields of `SynthState`, and each handler of the component becomes a
function `... → SynthState → SynthState`.  Calls into the Web Audio API are
recorded in the state: scheduled parameter automation (`setValueAtTime`,
`linearRampToValueAtTime`, `cancelAndHoldAtTime`) is appended to a log `sched`,
direct `.value =` assignments to `directWrites`, `connect`/`disconnect` edits
the edge list `connections`, and `oscillator.start()` appends to `oscStarted`.
Audio-node identities are natural numbers handed out by the allocator
`nextNodeId`; the shared nodes built once at initialization get the fixed ids
0–5.  Times and levels are rationals (`audioContext.currentTime` is the field
`now`, advanced by an explicit `wait` event).
-/

namespace HelloSynth

/-- One scheduled automation call on an audio parameter, as issued by the
source (`setValueAtTime`, `linearRampToValueAtTime`, `cancelAndHoldAtTime`). -/
inductive AutomationEvent where
  | setValueAtTime (value time : ℚ)
  | linearRampToValueAtTime (value time : ℚ)
  | cancelAndHoldAtTime (time : ℚ)
deriving DecidableEq

/-- Identifies one automatable audio parameter: the owning node's id and the
parameter name (for example `"gain"`, `"detune"`, `"frequency"`, `"Q"`). -/
abbrev ParamKey := Nat × String

/-- An edge of the audio graph, as created by `connect` calls in the source.
The fixed wiring of the shared nodes gets dedicated constructors; the dynamic
edges carry the ids of the per-voice nodes involved. -/
inductive Conn where
  | lfoOscToLfoGain
  | lfoGainToFilterFreq
  | lfoGainToOscDetune (osc : Nat)
  | delayToFeedback
  | feedbackToDelay
  | filterToDelay
  | filterToMain
  | delayToMain
  | mainToDest
  | oscToVca (osc vca : Nat)
  | vcaToFilter (vca : Nat)
deriving DecidableEq

/-- A note as handed to the engine by the note table / MIDI collaborator.
The source guards `if (!frequency) return`, so a missing frequency is part of
the interface and modelled with `Option`. -/
structure Note where
  name : String
  frequency : Option ℚ
deriving DecidableEq

/-- Oscillator panel record (`DEFAULTS.osc1` / `DEFAULTS.osc2` shape). -/
structure OscParams where
  type : String
  detune : ℚ
  octave : ℚ
deriving DecidableEq

/-- LFO panel record (`DEFAULTS.lfo` shape). -/
structure LFOParams where
  frequency : ℚ
  level : ℚ
  destination : String
  type : String
deriving DecidableEq

/-- Amp panel record. -/
structure AmpParams where
  level : ℚ
deriving DecidableEq

/-- Filter panel record. -/
structure FilterParams where
  frequency : ℚ
  q : ℚ
deriving DecidableEq

/-- Delay panel record. -/
structure DelayParams where
  time : ℚ
  feedback : ℚ
deriving DecidableEq

/-- Control panel record. -/
structure ControlParams where
  tempo : ℚ
  latch : Bool
  arp : Bool
deriving DecidableEq

/-- Envelope record. -/
structure Envelope where
  attack : ℚ
  decay : ℚ
  sustain : ℚ
  release : ℚ
deriving DecidableEq

/-- The whole engine state: audio-graph bookkeeping plus the component's refs
and React state.  `voices` models `voicesRef.current`, a JS object keyed by
note name whose entries hold the voice's VCA node (`{vca}`). -/
structure SynthState where
  now : ℚ
  nextNodeId : Nat
  voices : List (String × Nat)
  sched : List (ParamKey × AutomationEvent)
  directWrites : List (ParamKey × ℚ)
  oscTypes : List (Nat × String)
  oscStarted : List Nat
  connections : List Conn
  mainGainValue : ℚ
  lfoGainValue : ℚ
  lfoOscType : String
  delayTimeValue : ℚ
  feedbackGainValue : ℚ
  currentNote : Option Nat
  pressedKeys : List Note
  osc1 : OscParams
  osc2 : OscParams
  lfo : LFOParams
  amp : AmpParams
  filter : FilterParams
  envelopeState : Envelope
  envelopeRefCur : Envelope
  delay : DelayParams
  control : ControlParams
deriving DecidableEq

/-- Node id of the main output gain built at initialization. -/
def mainGainId : Nat := 0

/-- Node id of the shared lowpass filter. -/
def filterId : Nat := 1

/-- Node id of the shared delay line. -/
def delayId : Nat := 2

/-- Node id of the delay feedback gain. -/
def feedbackId : Nat := 3

/-- Node id of the LFO oscillator. -/
def lfoOscId : Nat := 4

/-- Node id of the LFO depth gain. -/
def lfoGainId : Nat := 5

/-- JS property assignment `voices[name] = v`: replaces the binding if the key
is present, otherwise appends it. -/
def setVoice : List (String × Nat) → String → Nat → List (String × Nat)
  | [], k, v => [(k, v)]
  | p :: rest, k, v => if p.1 = k then (k, v) :: rest else p :: setVoice rest k v

/-- JS property lookup `voices[name]` (truthy iff present). -/
def lookupVoice : List (String × Nat) → String → Option Nat
  | [], _ => none
  | p :: rest, k => if p.1 = k then some p.2 else lookupVoice rest k

/-- The pair of automation calls issued by `destroyOscillator` on a voice's
VCA gain: cancel-and-hold now, then a linear ramp to 0 ending `r` seconds
later. -/
def destroySched (v : Nat) (t r : ℚ) : List (ParamKey × AutomationEvent) :=
  [((v, "gain"), AutomationEvent.cancelAndHoldAtTime t),
   ((v, "gain"), AutomationEvent.linearRampToValueAtTime 0 (t + r))]

/-- Source `destroyOscillator`: no-op when no voice is registered for the note;
otherwise cancels pending automation on the voice's VCA at the current time and
schedules the release ramp using the live `envelopeRef.current.release`.  The
voice entry is not removed, the oscillators are not stopped, and nothing else
is touched. -/
def destroyOscillator (note : Note) (st : SynthState) : SynthState :=
  match lookupVoice st.voices note.name with
  | none => st
  | some vca =>
    { st with sched := st.sched ++ destroySched vca st.now st.envelopeRefCur.release }

/-- The automation calls issued when a fresh voice is built at state `st`:
both oscillators' detune `setValueAtTime`, then the VCA gain attack/decay
schedule — hold 0 at `now`, linear ramp to the design constant 0.1 ending at
`now + attack`, linear ramp to the sustain level ending at
`now + attack + decay`.  The new nodes get ids `nextNodeId` (osc1),
`nextNodeId + 1` (osc2) and `nextNodeId + 2` (VCA). -/
def voiceCreateSched (st : SynthState) : List (ParamKey × AutomationEvent) :=
  [((st.nextNodeId, "detune"), AutomationEvent.setValueAtTime st.osc1.detune st.now),
   ((st.nextNodeId + 1, "detune"), AutomationEvent.setValueAtTime st.osc2.detune st.now),
   ((st.nextNodeId + 2, "gain"), AutomationEvent.setValueAtTime 0 st.now),
   ((st.nextNodeId + 2, "gain"),
     AutomationEvent.linearRampToValueAtTime 0.1 (st.now + st.envelopeRefCur.attack)),
   ((st.nextNodeId + 2, "gain"),
     AutomationEvent.linearRampToValueAtTime st.envelopeState.sustain
       (st.now + st.envelopeRefCur.attack + st.envelopeRefCur.decay))]

/-- Source `createOscillator`: silently returns when `note.frequency` is
missing; if a voice already exists for the note it first runs
`destroyOscillator`; then it builds oscillator1, oscillator2 and the VCA,
connects the LFO depth gain into an oscillator's detune when that oscillator is
the current LFO destination, schedules the attack/decay envelope (attack and
decay read from `envelopeRef.current`, sustain from the `envelope` React
state), wires osc1/osc2 → VCA → filter, and registers the voice under the note
name.  The source interleaves these calls; here they are grouped into one
record update per state field, preserving each log's relative order. -/
def createOscillator (note : Note) (st : SynthState) : SynthState :=
  match note.frequency with
  | none => st
  | some frequency =>
    let st0 := if (lookupVoice st.voices note.name).isSome then destroyOscillator note st else st
    let o1 := st0.nextNodeId
    let o2 := st0.nextNodeId + 1
    let v := st0.nextNodeId + 2
    { st0 with
      nextNodeId := st0.nextNodeId + 3,
      oscTypes := st0.oscTypes ++ [(o1, st0.osc1.type), (o2, st0.osc2.type)],
      directWrites := st0.directWrites ++
        [((o1, "frequency"), frequency * st0.osc1.octave),
         ((o2, "frequency"), frequency * st0.osc2.octave),
         ((v, "gain"), 0)],
      sched := st0.sched ++ voiceCreateSched st0,
      oscStarted := st0.oscStarted ++ [o1, o2],
      connections := st0.connections
        ++ (if st0.lfo.destination = "osc1" then [Conn.lfoGainToOscDetune o1] else [])
        ++ (if st0.lfo.destination = "osc2" then [Conn.lfoGainToOscDetune o2] else [])
        ++ [Conn.oscToVca o1 v, Conn.oscToVca o2 v, Conn.vcaToFilter v],
      voices := setVoice st0.voices note.name v }

/-- Outgoing edges of the LFO depth gain (the edges removed by
`lfoGainRef.current.disconnect()`). -/
def isLfoGainOut : Conn → Bool
  | Conn.lfoGainToFilterFreq => true
  | Conn.lfoGainToOscDetune _ => true
  | _ => false

/-- Source `handleLFOChange`: when the destination changed, disconnect every
outgoing edge of the LFO depth gain and reconnect only when the new destination
is `"filter"`; update level and wave type only when they differ from the node's
current values.  The frequency guard in the source compares the `frequency`
AudioParam object itself against a number, which is never equal, so the
`setValueAtTime` on the LFO frequency runs on every call. -/
def handleLFOChange (newLFO : LFOParams) (st : SynthState) : SynthState :=
  let st1 :=
    if st.lfo.destination ≠ newLFO.destination then
      let s := { st with connections := st.connections.filter (fun c => !(isLfoGainOut c)) }
      if newLFO.destination = "filter" then
        { s with connections := s.connections ++ [Conn.lfoGainToFilterFreq] }
      else s
    else st
  let st2 := if st1.lfoGainValue ≠ newLFO.level then { st1 with lfoGainValue := newLFO.level } else st1
  let st3 := if st2.lfoOscType ≠ newLFO.type then { st2 with lfoOscType := newLFO.type } else st2
  let st4 := { st3 with
    sched := st3.sched ++ [((lfoOscId, "frequency"), AutomationEvent.setValueAtTime newLFO.frequency st3.now)] }
  { st4 with lfo := newLFO }

/-- Source `handleOsc1Change`. -/
def handleOsc1Change (newOsc : OscParams) (st : SynthState) : SynthState :=
  { st with osc1 := newOsc }

/-- Source `handleOsc2Change`. -/
def handleOsc2Change (newOsc : OscParams) (st : SynthState) : SynthState :=
  { st with osc2 := newOsc }

/-- Source `handleAmpChange`: writes the main gain value only when changed. -/
def handleAmpChange (newAmp : AmpParams) (st : SynthState) : SynthState :=
  let st1 := if st.mainGainValue ≠ newAmp.level then { st with mainGainValue := newAmp.level } else st
  { st1 with amp := newAmp }

/-- Source `handleFilterChange`: schedules `setValueAtTime` on the shared
filter's frequency and Q, each only when it differs from the previous panel
record. -/
def handleFilterChange (newFilter : FilterParams) (st : SynthState) : SynthState :=
  let st1 :=
    if newFilter.frequency ≠ st.filter.frequency then
      { st with sched := st.sched ++
          [((filterId, "frequency"), AutomationEvent.setValueAtTime newFilter.frequency st.now)] }
    else st
  let st2 :=
    if newFilter.q ≠ st.filter.q then
      { st1 with sched := st1.sched ++
          [((filterId, "Q"), AutomationEvent.setValueAtTime newFilter.q st1.now)] }
    else st1
  { st2 with filter := newFilter }

/-- Source `handleEnvelopeChange`: replaces both `envelopeRef.current` and the
`envelope` React state with the new record. -/
def handleEnvelopeChange (newEnvelope : Envelope) (st : SynthState) : SynthState :=
  { st with envelopeRefCur := newEnvelope, envelopeState := newEnvelope }

/-- Source `handleDelayChange`: writes the delay time and feedback gain values,
each only when the panel record changed. -/
def handleDelayChange (newDelay : DelayParams) (st : SynthState) : SynthState :=
  let st1 := if newDelay.time ≠ st.delay.time then { st with delayTimeValue := newDelay.time } else st
  let st2 :=
    if newDelay.feedback ≠ st.delay.feedback then { st1 with feedbackGainValue := newDelay.feedback }
    else st1
  { st2 with delay := newDelay }

/-- Source `stopNote`: ignored when latch is on and the call is not forced;
otherwise destroys the note's voice and removes the note from `pressedKeys`. -/
def stopNote (note : Note) (force : Bool) (st : SynthState) : SynthState :=
  if st.control.latch = true ∧ force = false then st
  else
    let st1 := destroyOscillator note st
    { st1 with pressedKeys := st1.pressedKeys.filter (fun n => n.name ≠ note.name) }

/-- Source `playNote`: under latch, pressing an already-held note is a forced
release; an already-held note is otherwise ignored; a new note is appended to
`pressedKeys` and, unless arp mode is on, immediately gets a voice. -/
def playNote (note : Note) (st : SynthState) : SynthState :=
  let notePressed := (st.pressedKeys.find? (fun n => n.name == note.name)).isSome
  let st1 := if st.control.latch = true ∧ notePressed = true then stopNote note true st else st
  if notePressed = true then st1
  else
    let st2 := { st1 with pressedKeys := st1.pressedKeys ++ [note] }
    if st2.control.arp = true then st2 else createOscillator note st2

/-- Source `handleControlChange`.  The `forEach` loops iterate the
`pressedKeys` array captured when the handler ran, captured here as `keys0`;
turning latch off force-stops every held note and then empties the held set;
turning arp on resets the cursor to 0 and destroys all held voices; turning arp
off clears the cursor and, under latch, re-creates voices for the held notes. -/
def handleControlChange (newControl : ControlParams) (st : SynthState) : SynthState :=
  let keys0 := st.pressedKeys
  let st1 :=
    if st.control.latch ≠ newControl.latch ∧ newControl.latch = false then
      let s := keys0.foldl (fun s n => stopNote n true s) st
      { s with pressedKeys := [] }
    else st
  let st2 :=
    if newControl.arp = true ∧ newControl.arp ≠ st.control.arp then
      keys0.foldl (fun s n => destroyOscillator n s) { st1 with currentNote := some 0 }
    else if newControl.arp ≠ st.control.arp then
      let s := if newControl.latch = true then keys0.foldl (fun s n => createOscillator n s) st1 else st1
      { s with currentNote := none }
    else st1
  { st2 with control := newControl }

/-- Source `playArpNote`: creates the voice, then reads
`voicesRef.current[note.name]` by destructuring with no presence check — when
`createOscillator` silently returned (missing frequency) that lookup is
`undefined` and the destructuring throws.  The `Bool` is `false` exactly when
the source would throw a `TypeError`; the returned state keeps the mutations
made before the fault.  On success it schedules cancel-and-hold one second
after the trigger and a ramp to 0 over `envelope.release` (the React state)
ending at `now + release + 1`. -/
def playArpNote (note : Note) (st : SynthState) : SynthState × Bool :=
  let st1 := createOscillator note st
  match lookupVoice st1.voices note.name with
  | none => (st1, false)
  | some vca =>
    ({ st1 with sched := st1.sched ++
        [((vca, "gain"), AutomationEvent.cancelAndHoldAtTime (st1.now + 1)),
         ((vca, "gain"),
           AutomationEvent.linearRampToValueAtTime 0 (st1.now + st1.envelopeState.release + 1))] },
     true)

/-- The cursor advance performed by the arp clock's timeout callback:
`currentNote + 1` (JS coerces `null` to 0), wrapping to 0 exactly when the
successor equals `pressedKeys.length`. -/
def advanceCursor (st : SynthState) : SynthState :=
  let nextNote := st.currentNote.getD 0 + 1
  if nextNote = st.pressedKeys.length then { st with currentNote := some 0 }
  else { st with currentNote := some nextNote }

/-- The note the arp effect body will play on this run, if any:
`currentNote ? pressedKeys[currentNote] : pressedKeys[0]` — a `null` or `0`
cursor both read index 0, so the index is `currentNote.getD 0`; an out-of-range
index gives `undefined`, modelled as `none`. -/
def arpSelectedNote (st : SynthState) : Option Note :=
  if st.control.arp = true ∧ 0 < st.pressedKeys.length then
    st.pressedKeys[st.currentNote.getD 0]?
  else none

/-- One run of the arp clock effect body (`useEffect` over
`[pressedKeys, currentNote, control.arp]`): when arp is on and keys are held,
play the selected note if its array read is defined, then let the timeout
advance the cursor.  When `playArpNote` faults, the effect aborts before the
timeout is installed, so the cursor does not advance; the `Bool` is `false` in
that case. -/
def arpTick (st : SynthState) : SynthState × Bool :=
  if st.control.arp = true ∧ 0 < st.pressedKeys.length then
    match st.pressedKeys[st.currentNote.getD 0]? with
    | some note =>
      let r := playArpNote note st
      if r.2 then (advanceCursor r.1, true) else (r.1, false)
    | none => (advanceCursor st, true)
  else (st, true)

/-- Default envelope record (`DEFAULTS.envelope`). -/
def defaultEnvelope : Envelope :=
  { attack := 0, decay := 0.5, sustain := 0.2, release := 0 }

/-- The state after the initialization effect: shared nodes built and wired,
LFO started and routed to the filter frequency, defaults loaded. -/
def initState : SynthState :=
  { now := 0
    nextNodeId := 6
    voices := []
    sched := [((filterId, "frequency"), AutomationEvent.setValueAtTime 1500 0),
              ((filterId, "Q"), AutomationEvent.setValueAtTime 0 0),
              ((lfoOscId, "frequency"), AutomationEvent.setValueAtTime 1 0)]
    directWrites := []
    oscTypes := []
    oscStarted := [lfoOscId]
    connections := [Conn.lfoOscToLfoGain, Conn.lfoGainToFilterFreq,
      Conn.delayToFeedback, Conn.feedbackToDelay, Conn.filterToDelay,
      Conn.filterToMain, Conn.delayToMain, Conn.mainToDest]
    mainGainValue := 0.2
    lfoGainValue := 0
    lfoOscType := "triangle"
    delayTimeValue := 0
    feedbackGainValue := 0
    currentNote := none
    pressedKeys := []
    osc1 := { type := "sawtooth", detune := 0, octave := 1 }
    osc2 := { type := "square", detune := 0, octave := 1 }
    lfo := { frequency := 1, level := 0, destination := "filter", type := "triangle" }
    amp := { level := 0.2 }
    filter := { frequency := 1500, q := 0 }
    envelopeState := defaultEnvelope
    envelopeRefCur := defaultEnvelope
    delay := { time := 0, feedback := 0 }
    control := { tempo := 90, latch := false, arp := false } }

/-- Everything a caller at the public interface can do to the engine: key
press/release (keyboard and touch funnel into the same two functions), the
Escape panic input, every parameter setter, the MIDI collaborator's direct
voice calls, a run of the arp clock effect, and the passage of time. -/
inductive SynthEvent where
  | press (note : Note)
  | release (note : Note)
  | forceRelease (note : Note)
  | escape
  | midiNoteOn (note : Note)
  | midiNoteOff (note : Note)
  | controlChange (c : ControlParams)
  | lfoChange (l : LFOParams)
  | envelopeChange (e : Envelope)
  | ampChange (a : AmpParams)
  | filterChange (f : FilterParams)
  | delayChange (d : DelayParams)
  | osc1Change (o : OscParams)
  | osc2Change (o : OscParams)
  | tick
  | wait (d : ℚ)
deriving DecidableEq

/-- Interpretation of one interface event by the engine. -/
def step (st : SynthState) (e : SynthEvent) : SynthState :=
  match e with
  | SynthEvent.press n => playNote n st
  | SynthEvent.release n => stopNote n false st
  | SynthEvent.forceRelease n => stopNote n true st
  | SynthEvent.escape =>
    let s := st.pressedKeys.foldl (fun s n => stopNote n true s) st
    { s with pressedKeys := [] }
  | SynthEvent.midiNoteOn n => createOscillator n st
  | SynthEvent.midiNoteOff n => destroyOscillator n st
  | SynthEvent.controlChange c => handleControlChange c st
  | SynthEvent.lfoChange l => handleLFOChange l st
  | SynthEvent.envelopeChange en => handleEnvelopeChange en st
  | SynthEvent.ampChange a => handleAmpChange a st
  | SynthEvent.filterChange f => handleFilterChange f st
  | SynthEvent.delayChange d => handleDelayChange d st
  | SynthEvent.osc1Change o => handleOsc1Change o st
  | SynthEvent.osc2Change o => handleOsc2Change o st
  | SynthEvent.tick => (arpTick st).1
  | SynthEvent.wait d => { st with now := st.now + d }

/-- Run a sequence of interface events. -/
def run (st : SynthState) (evts : List SynthEvent) : SynthState :=
  evts.foldl step st

/-- Outgoing LFO-depth-gain edges currently present in the graph. -/
def lfoEdges (st : SynthState) : List Conn :=
  st.connections.filter (fun c => isLfoGainOut c)

/-- The automation events scheduled so far on the `gain` parameter of node
`v`, in scheduling order. -/
def gainEvents (sched : List (ParamKey × AutomationEvent)) (v : Nat) : List AutomationEvent :=
  (sched.filter (fun p => p.1 = (v, "gain"))).map Prod.snd

/-- Events that only edit parameters or let time pass: every panel setter
except the control-mode handler (which itself performs note-offs and note-ons)
and no key/MIDI/clock activity. -/
def benignEvent : SynthEvent → Bool
  | SynthEvent.lfoChange _ => true
  | SynthEvent.envelopeChange _ => true
  | SynthEvent.ampChange _ => true
  | SynthEvent.filterChange _ => true
  | SynthEvent.delayChange _ => true
  | SynthEvent.osc1Change _ => true
  | SynthEvent.osc2Change _ => true
  | SynthEvent.wait _ => true
  | _ => false

/-- Release automation issued by force-stopping each listed note in order,
given the voice map and timing in effect when the loop started (notes without
a registered voice contribute nothing). -/
def releaseAllSched (voices : List (String × Nat)) (t r : ℚ) :
    List Note → List (ParamKey × AutomationEvent)
  | [] => []
  | n :: rest =>
    (match lookupVoice voices n.name with
     | some v => destroySched v t r
     | none => []) ++ releaseAllSched voices t r rest

/-- Iterated arp clock runs. -/
def ticksFrom (st : SynthState) : Nat → SynthState
  | 0 => st
  | n + 1 => (arpTick (ticksFrom st n)).1

/-- Concrete note in the shape of the note-table entries, for witnesses. -/
def noteA : Note := { name := "a4", frequency := some 440 }

/-- Concrete note for witnesses. -/
def noteB : Note := { name := "b4", frequency := some 494 }

/-- Concrete note for witnesses. -/
def noteC : Note := { name := "c5", frequency := some 523 }

/-- A note whose frequency is missing — the unmapped-key case the engine's
`if (!frequency) return` guard exists for. -/
def noteX : Note := { name := "x0", frequency := none }

/-- Control record with the arpeggiator armed. -/
def arpOnControl : ControlParams := { tempo := 90, latch := false, arp := true }

/-- Control record with latch on. -/
def latchOnControl : ControlParams := { tempo := 90, latch := true, arp := false }

/-- Control record with everything off. -/
def latchOffControl : ControlParams := { tempo := 90, latch := false, arp := false }

/-- LFO record targeting oscillator 1's detune. -/
def lfoToOsc1 : LFOParams := { frequency := 1, level := 0, destination := "osc1", type := "triangle" }

/-- Envelope record with a 2-second release. -/
def envRel2 : Envelope := { attack := 0.1, decay := 0.5, sustain := 0.2, release := 2 }

/-- The envelope of the C6 determinism scenario: attack 0.1, decay 0.5,
sustain 0.2. -/
def envC6 : Envelope := { attack := 0.1, decay := 0.5, sustain := 0.2, release := 0 }

/-! ### Assoc-list lemmas for the voice map -/

theorem lookupVoice_setVoice_self (l : List (String × Nat)) (k : String) (v : Nat) :
    lookupVoice (setVoice l k v) k = some v := by
  induction l with
  | nil => simp [setVoice, lookupVoice]
  | cons p rest ih =>
    by_cases h : p.1 = k
    · simp [setVoice, lookupVoice, h]
    · simp [setVoice, lookupVoice, h, ih]

theorem mem_keys_setVoice {l : List (String × Nat)} {k a : String} {v : Nat}
    (h : a ∈ (setVoice l k v).map Prod.fst) : a = k ∨ a ∈ l.map Prod.fst := by
  induction l with
  | nil => simpa [setVoice] using h
  | cons p rest ih =>
    by_cases hp : p.1 = k
    · simp only [setVoice, if_pos hp, List.map_cons, List.mem_cons] at h
      rcases h with h | h
      · exact Or.inl h
      · exact Or.inr (by simp [h])
    · simp only [setVoice, if_neg hp, List.map_cons, List.mem_cons] at h
      rcases h with h | h
      · exact Or.inr (by simp [h])
      · rcases ih h with h | h
        · exact Or.inl h
        · exact Or.inr (by simp [h])

theorem nodup_keys_setVoice {l : List (String × Nat)} {k : String} {v : Nat}
    (h : (l.map Prod.fst).Nodup) : ((setVoice l k v).map Prod.fst).Nodup := by
  induction l with
  | nil => simp [setVoice]
  | cons p rest ih =>
    rw [List.map_cons, List.nodup_cons] at h
    by_cases hp : p.1 = k
    · simp only [setVoice, if_pos hp, List.map_cons, List.nodup_cons]
      exact ⟨hp ▸ h.1, h.2⟩
    · simp only [setVoice, if_neg hp, List.map_cons, List.nodup_cons]
      refine ⟨fun hmem => ?_, ih h.2⟩
      rcases mem_keys_setVoice hmem with h1 | h1
      · exact hp h1
      · exact h.1 h1

theorem mem_setVoice_bound {l : List (String × Nat)} {k : String} {v n : Nat}
    (hl : ∀ p ∈ l, p.2 < n) (hv : v < n) : ∀ p ∈ setVoice l k v, p.2 < n := by
  induction l with
  | nil => intro q hq; simp only [setVoice, List.mem_singleton] at hq; simpa [hq]
  | cons p rest ih =>
    intro q hq
    by_cases hp : p.1 = k
    · simp only [setVoice, if_pos hp, List.mem_cons] at hq
      rcases hq with rfl | hq
      · exact hv
      · exact hl q (by simp [hq])
    · simp only [setVoice, if_neg hp, List.mem_cons] at hq
      rcases hq with rfl | hq
      · exact hl q (by simp)
      · exact ih (fun p h => hl p (by simp [h])) q hq

theorem lookupVoice_lt {l : List (String × Nat)} {k : String} {v n : Nat}
    (hl : ∀ p ∈ l, p.2 < n) (h : lookupVoice l k = some v) : v < n := by
  induction l with
  | nil => simp [lookupVoice] at h
  | cons p rest ih =>
    simp only [lookupVoice] at h
    split at h
    · cases h; exact hl p (by simp)
    · exact ih (fun p hp => hl p (by simp [hp])) h

/-! ### Behaviour lemmas for the voice operations -/

theorem destroyOscillator_spec (note : Note) (st : SynthState) :
    destroyOscillator note st =
      { st with sched := st.sched ++
          match lookupVoice st.voices note.name with
          | some v => destroySched v st.now st.envelopeRefCur.release
          | none => [] } := by
  unfold destroyOscillator
  cases h : lookupVoice st.voices note.name <;> simp

theorem createOscillator_preserves (note : Note) (st : SynthState) :
    (createOscillator note st).pressedKeys = st.pressedKeys ∧
    (createOscillator note st).control = st.control ∧
    (createOscillator note st).currentNote = st.currentNote ∧
    (createOscillator note st).now = st.now ∧
    (createOscillator note st).envelopeState = st.envelopeState ∧
    (createOscillator note st).envelopeRefCur = st.envelopeRefCur := by
  cases hf : note.frequency
  · simp [createOscillator, hf]
  · simp only [createOscillator, hf, destroyOscillator_spec]
    split <;> simp

theorem createOscillator_register (note : Note) (f : ℚ) (hf : note.frequency = some f)
    (st : SynthState) :
    (createOscillator note st).voices = setVoice st.voices note.name (st.nextNodeId + 2) ∧
    (createOscillator note st).nextNodeId = st.nextNodeId + 3 := by
  simp only [createOscillator, hf, destroyOscillator_spec]
  split <;> simp

theorem createOscillator_lookup (note : Note) (f : ℚ) (hf : note.frequency = some f)
    (st : SynthState) :
    lookupVoice (createOscillator note st).voices note.name = some (st.nextNodeId + 2) := by
  rw [(createOscillator_register note f hf st).1, lookupVoice_setVoice_self]

/-! ### The voice-map key invariant -/

/-- Invariant carried along every trace: the voice map has no duplicate note
name, and every registered node id is below the allocator (so freshly built
nodes are distinct from all registered voices). -/
def goodState (st : SynthState) : Prop :=
  (st.voices.map Prod.fst).Nodup ∧ ∀ p ∈ st.voices, p.2 < st.nextNodeId

theorem goodState_destroy (note : Note) {st : SynthState} (h : goodState st) :
    goodState (destroyOscillator note st) := by
  rw [destroyOscillator_spec]; exact h

theorem goodState_create (note : Note) {st : SynthState} (h : goodState st) :
    goodState (createOscillator note st) := by
  cases hf : note.frequency with
  | none => simp only [createOscillator, hf]; exact h
  | some f =>
    obtain ⟨hv, hn⟩ := createOscillator_register note f hf st
    constructor
    · rw [hv]
      exact nodup_keys_setVoice h.1
    · rw [hv, hn]
      exact mem_setVoice_bound (fun p hp => Nat.lt_trans (h.2 p hp) (by omega)) (by omega)

theorem goodState_stop (note : Note) (force : Bool) {st : SynthState} (h : goodState st) :
    goodState (stopNote note force st) := by
  unfold stopNote
  split
  · exact h
  · exact goodState_destroy note h

theorem goodState_foldl {α : Type} {f : SynthState → α → SynthState}
    (hf : ∀ s n, goodState s → goodState (f s n)) :
    ∀ (l : List α) (st : SynthState), goodState st → goodState (l.foldl f st) := by
  intro l
  induction l with
  | nil => intro st h; exact h
  | cons n rest ih => intro st h; exact ih _ (hf st n h)

theorem goodState_play (note : Note) {st : SynthState} (h : goodState st) :
    goodState (playNote note st) := by
  simp only [playNote]
  split_ifs <;>
    first
      | exact h
      | exact goodState_stop note true h
      | exact goodState_create note h
      | exact goodState_create note (goodState_stop note true h)

theorem goodState_control (c : ControlParams) {st : SynthState} (h : goodState st) :
    goodState (handleControlChange c st) := by
  have hstop : ∀ (l : List Note) (s : SynthState), goodState s →
      goodState (l.foldl (fun s n => stopNote n true s) s) :=
    fun l s hs => goodState_foldl (fun s n hs => goodState_stop n true hs) l s hs
  have hdes : ∀ (l : List Note) (s : SynthState), goodState s →
      goodState (l.foldl (fun s n => destroyOscillator n s) s) :=
    fun l s hs => goodState_foldl (fun s n hs => goodState_destroy n hs) l s hs
  have hcre : ∀ (l : List Note) (s : SynthState), goodState s →
      goodState (l.foldl (fun s n => createOscillator n s) s) :=
    fun l s hs => goodState_foldl (fun s n hs => goodState_create n hs) l s hs
  simp only [handleControlChange]
  split_ifs <;>
    first
      | exact h
      | exact hstop _ _ h
      | exact hdes _ _ h
      | exact hdes _ _ (hstop _ _ h)
      | exact hcre _ _ h
      | exact hcre _ _ (hstop _ _ h)

theorem goodState_advanceCursor {st : SynthState} (h : goodState st) :
    goodState (advanceCursor st) := by
  simp only [advanceCursor]
  split <;> exact h

theorem goodState_playArp (note : Note) {st : SynthState} (h : goodState st) :
    goodState (playArpNote note st).1 := by
  simp only [playArpNote]
  split
  · exact goodState_create note h
  · exact goodState_create note h

theorem goodState_arpTick {st : SynthState} (h : goodState st) : goodState (arpTick st).1 := by
  simp only [arpTick]
  split
  · split
    · split
      · exact goodState_advanceCursor (goodState_playArp _ h)
      · exact goodState_playArp _ h
    · exact goodState_advanceCursor h
  · exact h

theorem goodState_step (e : SynthEvent) {st : SynthState} (h : goodState st) :
    goodState (step st e) := by
  cases e with
  | press n => exact goodState_play n h
  | release n => exact goodState_stop n false h
  | forceRelease n => exact goodState_stop n true h
  | escape =>
    exact goodState_foldl (fun s n hs => goodState_stop n true hs) _ _ h
  | midiNoteOn n => exact goodState_create n h
  | midiNoteOff n => exact goodState_destroy n h
  | controlChange c => exact goodState_control c h
  | lfoChange l =>
    simp only [step, handleLFOChange]
    split_ifs <;> exact h
  | envelopeChange en => exact h
  | ampChange a =>
    simp only [step, handleAmpChange]
    split_ifs <;> exact h
  | filterChange f =>
    simp only [step, handleFilterChange]
    split_ifs <;> exact h
  | delayChange d =>
    simp only [step, handleDelayChange]
    split_ifs <;> exact h
  | osc1Change o => exact h
  | osc2Change o => exact h
  | tick => exact goodState_arpTick h
  | wait d => exact h

theorem createOscillator_sched (note : Note) (f : ℚ) (hf : note.frequency = some f)
    (st : SynthState) :
    (createOscillator note st).sched
        = st.sched ++
          (match lookupVoice st.voices note.name with
           | some old => destroySched old st.now st.envelopeRefCur.release
           | none => []) ++ voiceCreateSched st := by
  simp only [createOscillator, hf, destroyOscillator_spec]
  cases hold : lookupVoice st.voices note.name with
  | none => simp [hold]
  | some old => simp [hold, voiceCreateSched, List.append_assoc]

theorem goodState_run (evts : List SynthEvent) : goodState (run initState evts) := by
  have hall : ∀ (evts : List SynthEvent) (st : SynthState), goodState st →
      goodState (run st evts) := by
    intro evts
    induction evts with
    | nil => intro st h; exact h
    | cons e rest ih => intro st h; exact ih _ (goodState_step e h)
  refine hall evts initState ⟨by simp [initState], ?_⟩
  intro p hp
  simp [initState] at hp

/-! ### Claim theorems -/

/-- C1: along every interface trace the voice map holds at most one entry per
note name; moreover, when `createOscillator` runs for a note that already has
a voice, it first issues the force-stop automation (cancel-and-hold plus a
ramp to 0) on the old voice's VCA, then rebinds the name to the freshly
allocated VCA, which is distinct from the old one — the old voice is replaced,
never stacked under the same name. -/
theorem c1_at_most_one_voice (evts : List SynthEvent) :
    ((run initState evts).voices.map Prod.fst).Nodup ∧
    (∀ note old f,
      lookupVoice (run initState evts).voices note.name = some old →
      note.frequency = some f →
      lookupVoice (createOscillator note (run initState evts)).voices note.name
          = some ((run initState evts).nextNodeId + 2) ∧
      (run initState evts).nextNodeId + 2 ≠ old ∧
      (createOscillator note (run initState evts)).sched
          = (run initState evts).sched
            ++ destroySched old (run initState evts).now
                 (run initState evts).envelopeRefCur.release
            ++ voiceCreateSched (run initState evts)) := by
  obtain ⟨hn, hb⟩ := goodState_run evts
  refine ⟨hn, fun note old f hold hf => ⟨createOscillator_lookup note f hf _, ?_, ?_⟩⟩
  · have := lookupVoice_lt hb hold
    omega
  · rw [createOscillator_sched note f hf, hold]

/-- Witness for C1 at a concrete trace: after a MIDI note-on for `noteA` its
voice is node 8; re-creating the voice destroys node 8's gain first and
rebinds the name to the fresh node 11. -/
theorem c1_witness :
    lookupVoice (run initState [SynthEvent.midiNoteOn noteA]).voices noteA.name = some 8 ∧
    noteA.frequency = some 440 ∧
    (lookupVoice (createOscillator noteA (run initState [SynthEvent.midiNoteOn noteA])).voices
        noteA.name = some ((run initState [SynthEvent.midiNoteOn noteA]).nextNodeId + 2) ∧
     (run initState [SynthEvent.midiNoteOn noteA]).nextNodeId + 2 ≠ 8 ∧
     (createOscillator noteA (run initState [SynthEvent.midiNoteOn noteA])).sched
        = (run initState [SynthEvent.midiNoteOn noteA]).sched
          ++ destroySched 8 (run initState [SynthEvent.midiNoteOn noteA]).now
               (run initState [SynthEvent.midiNoteOn noteA]).envelopeRefCur.release
          ++ voiceCreateSched (run initState [SynthEvent.midiNoteOn noteA])) :=
  ⟨by decide, by decide,
    (c1_at_most_one_voice [SynthEvent.midiNoteOn noteA]).2 noteA 8 440 (by decide) (by decide)⟩

/-- C3: the release ramp scheduled by `destroyOscillator` uses the envelope
release value in effect at the moment of destruction: after the envelope
record is replaced by `e2`, the scheduled ramp runs from the cancel point at
the current time down to 0 at `now + e2.release` — whatever release value the
voice was created under. -/
theorem c3_release_uses_live_value (st : SynthState) (note : Note) (v : Nat) (e2 : Envelope)
    (h : lookupVoice st.voices note.name = some v) :
    (destroyOscillator note (handleEnvelopeChange e2 st)).sched
        = st.sched ++ destroySched v st.now e2.release := by
  simp [handleEnvelopeChange, destroyOscillator_spec, h]

/-- Witness for C3: a voice created under the default release 0; the envelope
is then replaced with `envRel2` (release 2), and the scheduled release ramp
has duration 2. -/
theorem c3_witness :
    lookupVoice (run initState [SynthEvent.midiNoteOn noteA]).voices noteA.name = some 8 ∧
    (destroyOscillator noteA
        (handleEnvelopeChange envRel2 (run initState [SynthEvent.midiNoteOn noteA]))).sched
      = (run initState [SynthEvent.midiNoteOn noteA]).sched
        ++ destroySched 8 (run initState [SynthEvent.midiNoteOn noteA]).now envRel2.release :=
  ⟨by decide, c3_release_uses_live_value _ noteA 8 envRel2 (by decide)⟩

/-- C8 counterexample: the claim says a second note-off for an already
released note schedules no gain automation, but after press + release of
`noteA` the voice-map entry is still present, so a further `release` appends
two more automation events (cancel-and-hold and a new ramp) to the schedule. -/
theorem c8_counterexample :
    (run initState
        [SynthEvent.press noteA, SynthEvent.release noteA, SynthEvent.release noteA]).sched
      = (run initState [SynthEvent.press noteA, SynthEvent.release noteA]).sched
        ++ destroySched 8 (run initState [SynthEvent.press noteA, SynthEvent.release noteA]).now
            (run initState [SynthEvent.press noteA, SynthEvent.release noteA]).envelopeRefCur.release ∧
    (run initState [SynthEvent.press noteA, SynthEvent.release noteA]).sched.length + 2
      = (run initState
          [SynthEvent.press noteA, SynthEvent.release noteA, SynthEvent.release noteA]).sched.length := by
  have h : lookupVoice
      (run initState [SynthEvent.press noteA, SynthEvent.release noteA]).voices noteA.name
      = some 8 := by decide
  have hl : (run initState [SynthEvent.press noteA, SynthEvent.release noteA]).control.latch
      = false := by decide
  constructor
  · show (stopNote noteA false
        (run initState [SynthEvent.press noteA, SynthEvent.release noteA])).sched = _
    simp [stopNote, hl, destroyOscillator_spec, h]
  · decide

/-- C8 (amended): a note-off for a note with no voice-map entry — one that
never sounded — is a fully silent no-op: `destroyOscillator` returns the state
unchanged, and `stopNote` without latch also returns the state unchanged when
the note is not among the held keys.  (Releasing a note does not remove its
voice-map entry, so a second note-off for an already-released note re-runs the
release scheduling instead; see the counterexample.) -/
theorem c8_noop_only_when_never_sounded (st : SynthState) (note : Note)
    (h : lookupVoice st.voices note.name = none) :
    destroyOscillator note st = st ∧
    (st.control.latch = false → (∀ n ∈ st.pressedKeys, n.name ≠ note.name) →
      stopNote note false st = st) := by
  have hd : destroyOscillator note st = st := by
    simp [destroyOscillator_spec, h]
  refine ⟨hd, fun hl hmem => ?_⟩
  have hfil : List.filter (fun n => !decide (n.name = note.name)) st.pressedKeys
      = st.pressedKeys :=
    List.filter_eq_self.mpr (fun a ha => by simpa using hmem a ha)
  simp [stopNote, hl, hd, hfil]

/-- Witness for C8: in the initial state `noteB` never sounded, and both
note-off entry points leave the state untouched. -/
theorem c8_witness :
    lookupVoice initState.voices noteB.name = none ∧
    initState.control.latch = false ∧
    destroyOscillator noteB initState = initState ∧
    stopNote noteB false initState = initState :=
  ⟨by decide, by decide,
    (c8_noop_only_when_never_sounded initState noteB (by decide)).1,
    (c8_noop_only_when_never_sounded initState noteB (by decide)).2 (by decide)
      (fun n hn => by simp [initState] at hn)⟩

theorem handleLFOChange_connections (newLFO : LFOParams) (st : SynthState) :
    (handleLFOChange newLFO st).connections
      = if st.lfo.destination ≠ newLFO.destination then
          (if newLFO.destination = "filter" then
            st.connections.filter (fun c => !(isLfoGainOut c)) ++ [Conn.lfoGainToFilterFreq]
          else st.connections.filter (fun c => !(isLfoGainOut c)))
        else st.connections := by
  simp only [handleLFOChange]
  split_ifs <;> try rfl

theorem handleLFOChange_lfo (newLFO : LFOParams) (st : SynthState) :
    (handleLFOChange newLFO st).lfo = newLFO := by
  simp only [handleLFOChange]

theorem lfoEdges_handleLFOChange (newLFO : LFOParams) (st : SynthState)
    (h : lfoEdges st = if st.lfo.destination = "filter" then [Conn.lfoGainToFilterFreq] else []) :
    lfoEdges (handleLFOChange newLFO st)
      = if (handleLFOChange newLFO st).lfo.destination = "filter"
          then [Conn.lfoGainToFilterFreq] else [] := by
  rw [handleLFOChange_lfo]
  simp only [lfoEdges] at h ⊢
  rw [handleLFOChange_connections]
  by_cases hd : st.lfo.destination ≠ newLFO.destination
  · rw [if_pos hd]
    by_cases hfil : newLFO.destination = "filter"
    · rw [if_pos hfil, if_pos hfil, List.filter_append, List.filter_filter]
      simp [isLfoGainOut]
    · rw [if_neg hfil, if_neg hfil, List.filter_filter]
      simp
  · rw [if_neg hd]
    rw [not_ne_iff] at hd
    rw [← hd]
    exact h

/-- C2 counterexample: the claim promises exactly one outgoing LFO-depth edge
matching the latest routing target, but retargeting the LFO to `osc1` leaves
zero outgoing edges (the source only reconnects for the `filter` target), and
two subsequent voice creations stack two detune edges that are never
disconnected. -/
theorem c2_counterexample :
    lfoEdges (run initState [SynthEvent.lfoChange lfoToOsc1]) = [] ∧
    lfoEdges (run initState
        [SynthEvent.lfoChange lfoToOsc1, SynthEvent.press noteA, SynthEvent.press noteB])
      = [Conn.lfoGainToOscDetune 6, Conn.lfoGainToOscDetune 9] := by
  constructor <;> decide

/-- C2 (amended): after any sequence of `handleLFOChange` calls with no
interleaved voice creations, the LFO-depth gain has exactly one outgoing
connection — to the filter frequency — when the most recently set destination
is `"filter"`, and zero outgoing connections otherwise; a destination change
always disconnects every existing LFO edge before any reconnect.  (With voice
creations interleaved under an oscillator destination, edges accumulate one
per created oscillator and are never disconnected; see the counterexample.) -/
theorem c2_single_edge_amended (ls : List LFOParams) :
    lfoEdges (ls.foldl (fun s l => handleLFOChange l s) initState)
      = if (ls.foldl (fun s l => handleLFOChange l s) initState).lfo.destination = "filter"
          then [Conn.lfoGainToFilterFreq] else [] := by
  suffices h : ∀ (ls : List LFOParams) (st : SynthState),
      (lfoEdges st = if st.lfo.destination = "filter" then [Conn.lfoGainToFilterFreq] else []) →
      lfoEdges (ls.foldl (fun s l => handleLFOChange l s) st)
        = if (ls.foldl (fun s l => handleLFOChange l s) st).lfo.destination = "filter"
            then [Conn.lfoGainToFilterFreq] else [] by
    exact h ls initState (by decide)
  intro ls
  induction ls with
  | nil => intro st h; exact h
  | cons l rest ih => intro st h; exact ih _ (lfoEdges_handleLFOChange l st h)

/-- C5 counterexample: the claim says an out-of-range arp cursor is clamped to
index 0 so every tick with held notes triggers some note.  On the reachable
state below (three notes held, two ticks advance the cursor to 2, then one
note is released) the cursor 2 is out of range for the two remaining keys: the
tick selects no note, schedules nothing, and advances the cursor to 3 instead
of wrapping or clamping. -/
theorem c5_counterexample :
    (run initState
        [SynthEvent.controlChange arpOnControl, SynthEvent.press noteA, SynthEvent.press noteB,
         SynthEvent.press noteC, SynthEvent.tick, SynthEvent.tick,
         SynthEvent.release noteC]).currentNote = some 2 ∧
    0 < (run initState
        [SynthEvent.controlChange arpOnControl, SynthEvent.press noteA, SynthEvent.press noteB,
         SynthEvent.press noteC, SynthEvent.tick, SynthEvent.tick,
         SynthEvent.release noteC]).pressedKeys.length ∧
    arpSelectedNote (run initState
        [SynthEvent.controlChange arpOnControl, SynthEvent.press noteA, SynthEvent.press noteB,
         SynthEvent.press noteC, SynthEvent.tick, SynthEvent.tick,
         SynthEvent.release noteC]) = none ∧
    (arpTick (run initState
        [SynthEvent.controlChange arpOnControl, SynthEvent.press noteA, SynthEvent.press noteB,
         SynthEvent.press noteC, SynthEvent.tick, SynthEvent.tick,
         SynthEvent.release noteC])).1.sched
      = (run initState
        [SynthEvent.controlChange arpOnControl, SynthEvent.press noteA, SynthEvent.press noteB,
         SynthEvent.press noteC, SynthEvent.tick, SynthEvent.tick,
         SynthEvent.release noteC]).sched ∧
    (arpTick (run initState
        [SynthEvent.controlChange arpOnControl, SynthEvent.press noteA, SynthEvent.press noteB,
         SynthEvent.press noteC, SynthEvent.tick, SynthEvent.tick,
         SynthEvent.release noteC])).1.currentNote = some 3 :=
  ⟨by decide, by decide, by decide, rfl, by decide⟩

/-- C5 (amended): on an arp tick whose cursor index is at or past the end of
the held-note set, no note is selected or triggered — the tick only advances
the cursor by one, and since the successor of an out-of-range index can never
equal the set's length it does not wrap to 0; there is no clamping to index 0,
so such a tick is silent despite the held-note set being non-empty. -/
theorem c5_out_of_range_is_silent (st : SynthState) (i : Nat)
    (ha : st.control.arp = true) (hk : 0 < st.pressedKeys.length)
    (hc : st.currentNote = some i) (hi : st.pressedKeys.length ≤ i) :
    arpSelectedNote st = none ∧
    (arpTick st).1 = { st with currentNote := some (i + 1) } := by
  have hget : st.pressedKeys[i]? = none := List.getElem?_eq_none hi
  have hil : ¬ (i + 1 = st.pressedKeys.length) := by omega
  constructor
  · simp [arpSelectedNote, ha, hk, hc, hget]
  · simp [arpTick, ha, hk, hc, hget, advanceCursor, hil]

/-- Witness for the amended C5 at the reachable counterexample state. -/
theorem c5_witness :
    arpSelectedNote (run initState
        [SynthEvent.controlChange arpOnControl, SynthEvent.press noteA, SynthEvent.press noteB,
         SynthEvent.press noteC, SynthEvent.tick, SynthEvent.tick,
         SynthEvent.release noteC]) = none ∧
    (arpTick (run initState
        [SynthEvent.controlChange arpOnControl, SynthEvent.press noteA, SynthEvent.press noteB,
         SynthEvent.press noteC, SynthEvent.tick, SynthEvent.tick,
         SynthEvent.release noteC])).1
      = { run initState
            [SynthEvent.controlChange arpOnControl, SynthEvent.press noteA, SynthEvent.press noteB,
             SynthEvent.press noteC, SynthEvent.tick, SynthEvent.tick,
             SynthEvent.release noteC] with currentNote := some (2 + 1) } :=
  c5_out_of_range_is_silent _ 2 (by decide) (by decide) (by decide) (by decide)

/-- C9: the engine's own guard treats a note without a frequency as a normal,
expected input (`createOscillator` silently returns), yet `playArpNote`
destructures the voice-map entry with no presence check, so an arp tick for a
held frequency-less note faults (`TypeError` in the source) instead of
no-opping: the model's tick reports the fault flag on a state reachable by
enabling arp and pressing such a note. -/
theorem c9_arp_tick_faults :
    (run initState [SynthEvent.controlChange arpOnControl, SynthEvent.press noteX]).pressedKeys
      = [noteX] ∧
    (run initState [SynthEvent.controlChange arpOnControl, SynthEvent.press noteX]).control.arp
      = true ∧
    (arpTick (run initState
        [SynthEvent.controlChange arpOnControl, SynthEvent.press noteX])).2 = false :=
  ⟨by decide, by decide, by decide⟩

theorem stopNote_force_fields (n : Note) (st : SynthState) :
    (stopNote n true st).sched = st.sched ++
      (match lookupVoice st.voices n.name with
       | some v => destroySched v st.now st.envelopeRefCur.release
       | none => []) ∧
    (stopNote n true st).voices = st.voices ∧
    (stopNote n true st).now = st.now ∧
    (stopNote n true st).envelopeRefCur = st.envelopeRefCur ∧
    (stopNote n true st).currentNote = st.currentNote ∧
    (stopNote n true st).control = st.control := by
  simp [stopNote, destroyOscillator_spec]

theorem stopAll_spec (keys : List Note) (st : SynthState) :
    (keys.foldl (fun s n => stopNote n true s) st).sched
        = st.sched ++ releaseAllSched st.voices st.now st.envelopeRefCur.release keys ∧
    (keys.foldl (fun s n => stopNote n true s) st).voices = st.voices ∧
    (keys.foldl (fun s n => stopNote n true s) st).now = st.now ∧
    (keys.foldl (fun s n => stopNote n true s) st).envelopeRefCur = st.envelopeRefCur ∧
    (keys.foldl (fun s n => stopNote n true s) st).currentNote = st.currentNote ∧
    (keys.foldl (fun s n => stopNote n true s) st).control = st.control := by
  induction keys generalizing st with
  | nil => simp [releaseAllSched]
  | cons n rest ih =>
    obtain ⟨h1, h2, h3, h4, h5, h6⟩ := stopNote_force_fields n st
    obtain ⟨g1, g2, g3, g4, g5, g6⟩ := ih (stopNote n true st)
    rw [List.foldl_cons]
    refine ⟨?_, ?_, ?_, ?_, ?_, ?_⟩
    · rw [g1, h2, h3, h4, h1, releaseAllSched, List.append_assoc]
    · rw [g2, h2]
    · rw [g3, h3]
    · rw [g4, h4]
    · rw [g5, h5]
    · rw [g6, h6]

/-- C7: a control change that turns latch off (arp mode unchanged)
force-releases every currently held note — scheduling the cancel-and-release
automation for each held note's registered voice, bypassing the latch guard —
and results in an empty held-note set; the voice-map entries themselves are
retained while their release ramps play out. -/
theorem c7_latch_off_clears (st : SynthState) (newControl : ControlParams)
    (h1 : st.control.latch = true) (h2 : newControl.latch = false)
    (h3 : newControl.arp = st.control.arp) :
    (handleControlChange newControl st).pressedKeys = [] ∧
    (handleControlChange newControl st).sched
        = st.sched ++ releaseAllSched st.voices st.now st.envelopeRefCur.release st.pressedKeys ∧
    (handleControlChange newControl st).voices = st.voices := by
  have hc1 : st.control.latch ≠ newControl.latch ∧ newControl.latch = false := by
    rw [h1, h2]; exact ⟨by simp, rfl⟩
  have hc2 : ¬(newControl.arp = true ∧ newControl.arp ≠ st.control.arp) := by
    rw [h3]; simp
  have hc3 : ¬(newControl.arp ≠ st.control.arp) := by rw [h3]; simp
  obtain ⟨g1, g2, _, _, _, _⟩ := stopAll_spec st.pressedKeys st
  refine ⟨?_, ?_, ?_⟩ <;> simp only [handleControlChange, if_pos hc1, if_neg hc2, if_neg hc3]
  · exact g1
  · exact g2

/-- Witness for C7: two latched held notes with sounding voices; turning latch
off empties the held set and schedules both releases. -/
theorem c7_witness :
    (run initState [SynthEvent.controlChange latchOnControl, SynthEvent.press noteA,
        SynthEvent.press noteB]).control.latch = true ∧
    latchOffControl.latch = false ∧
    ((handleControlChange latchOffControl (run initState
        [SynthEvent.controlChange latchOnControl, SynthEvent.press noteA,
         SynthEvent.press noteB])).pressedKeys = [] ∧
     (handleControlChange latchOffControl (run initState
        [SynthEvent.controlChange latchOnControl, SynthEvent.press noteA,
         SynthEvent.press noteB])).sched
        = (run initState [SynthEvent.controlChange latchOnControl, SynthEvent.press noteA,
            SynthEvent.press noteB]).sched
          ++ releaseAllSched
              (run initState [SynthEvent.controlChange latchOnControl, SynthEvent.press noteA,
                SynthEvent.press noteB]).voices
              (run initState [SynthEvent.controlChange latchOnControl, SynthEvent.press noteA,
                SynthEvent.press noteB]).now
              (run initState [SynthEvent.controlChange latchOnControl, SynthEvent.press noteA,
                SynthEvent.press noteB]).envelopeRefCur.release
              (run initState [SynthEvent.controlChange latchOnControl, SynthEvent.press noteA,
                SynthEvent.press noteB]).pressedKeys ∧
     (handleControlChange latchOffControl (run initState
        [SynthEvent.controlChange latchOnControl, SynthEvent.press noteA,
         SynthEvent.press noteB])).voices
        = (run initState [SynthEvent.controlChange latchOnControl, SynthEvent.press noteA,
            SynthEvent.press noteB]).voices) :=
  ⟨by decide, by decide,
    c7_latch_off_clears _ latchOffControl (by decide) (by decide) (by decide)⟩

theorem gainEvents_append (l1 l2 : List (ParamKey × AutomationEvent)) (v : Nat) :
    gainEvents (l1 ++ l2) v = gainEvents l1 v ++ gainEvents l2 v := by
  simp [gainEvents, List.filter_append]

theorem benign_no_gain_automation (e : SynthEvent) (st : SynthState) (v : Nat)
    (h : benignEvent e = true) :
    gainEvents (step st e).sched v = gainEvents st.sched v := by
  cases e <;> simp only [benignEvent] at h <;> try contradiction
  case lfoChange l =>
    simp only [step, handleLFOChange]
    split_ifs <;> simp [gainEvents_append, gainEvents, lfoOscId]
  case envelopeChange en => rfl
  case ampChange a =>
    simp only [step, handleAmpChange]
    split_ifs <;> rfl
  case filterChange f =>
    simp only [step, handleFilterChange]
    split_ifs <;> simp [gainEvents_append, gainEvents, filterId]
  case delayChange d =>
    simp only [step, handleDelayChange]
    split_ifs <;> rfl
  case osc1Change o => rfl
  case osc2Change o => rfl
  case wait d => rfl

/-- C6: creating a voice for a fresh note schedules exactly a three-point gain
automation on the new VCA (`nextNodeId + 2`): value 0 held at the current
time, a linear ramp ending at `now + attack` to the fixed design-constant peak
0.1 (independent of every panel parameter), and a linear ramp ending at
`now + attack + decay` to the sustain level; and no parameter setter or
passage of time schedules any further automation on that gain. -/
theorem c6_envelope_scheduling (st : SynthState) (note : Note) (f : ℚ)
    (h1 : note.frequency = some f) (h2 : lookupVoice st.voices note.name = none) :
    (createOscillator note st).sched = st.sched ++ voiceCreateSched st ∧
    gainEvents (createOscillator note st).sched (st.nextNodeId + 2)
        = gainEvents st.sched (st.nextNodeId + 2) ++
          [AutomationEvent.setValueAtTime 0 st.now,
           AutomationEvent.linearRampToValueAtTime 0.1 (st.now + st.envelopeRefCur.attack),
           AutomationEvent.linearRampToValueAtTime st.envelopeState.sustain
             (st.now + st.envelopeRefCur.attack + st.envelopeRefCur.decay)] ∧
    (∀ e, benignEvent e = true →
      gainEvents (step (createOscillator note st) e).sched (st.nextNodeId + 2)
        = gainEvents (createOscillator note st).sched (st.nextNodeId + 2)) := by
  have hs : (createOscillator note st).sched = st.sched ++ voiceCreateSched st := by
    rw [createOscillator_sched note f h1, h2]
    simp
  refine ⟨hs, ?_, fun e he => benign_no_gain_automation e _ _ he⟩
  rw [hs, gainEvents_append]
  congr 1
  simp [gainEvents, voiceCreateSched]

/-- Witness for C6 in the scenario of the spec's determinism property: default
state with envelope attack 0.1, decay 0.5, sustain 0.2, note-on at time 0 —
the ramp endpoints land at `0 + 0.1` (peak 0.1) and `0 + 0.1 + 0.5` (level
0.2). -/
theorem c6_witness :
    noteA.frequency = some 440 ∧
    lookupVoice (handleEnvelopeChange envC6 initState).voices noteA.name = none ∧
    ((createOscillator noteA (handleEnvelopeChange envC6 initState)).sched
        = (handleEnvelopeChange envC6 initState).sched
          ++ voiceCreateSched (handleEnvelopeChange envC6 initState) ∧
     gainEvents (createOscillator noteA (handleEnvelopeChange envC6 initState)).sched
        ((handleEnvelopeChange envC6 initState).nextNodeId + 2)
        = gainEvents (handleEnvelopeChange envC6 initState).sched
            ((handleEnvelopeChange envC6 initState).nextNodeId + 2) ++
          [AutomationEvent.setValueAtTime 0 (handleEnvelopeChange envC6 initState).now,
           AutomationEvent.linearRampToValueAtTime 0.1
             ((handleEnvelopeChange envC6 initState).now
               + (handleEnvelopeChange envC6 initState).envelopeRefCur.attack),
           AutomationEvent.linearRampToValueAtTime
             (handleEnvelopeChange envC6 initState).envelopeState.sustain
             ((handleEnvelopeChange envC6 initState).now
               + (handleEnvelopeChange envC6 initState).envelopeRefCur.attack
               + (handleEnvelopeChange envC6 initState).envelopeRefCur.decay)] ∧
     (∀ e, benignEvent e = true →
       gainEvents (step (createOscillator noteA (handleEnvelopeChange envC6 initState)) e).sched
          ((handleEnvelopeChange envC6 initState).nextNodeId + 2)
         = gainEvents (createOscillator noteA (handleEnvelopeChange envC6 initState)).sched
            ((handleEnvelopeChange envC6 initState).nextNodeId + 2))) ∧
    (handleEnvelopeChange envC6 initState).now = 0 ∧
    (handleEnvelopeChange envC6 initState).envelopeRefCur.attack = 0.1 ∧
    (handleEnvelopeChange envC6 initState).envelopeRefCur.decay = 0.5 ∧
    (handleEnvelopeChange envC6 initState).envelopeState.sustain = 0.2 :=
  ⟨rfl, by decide, c6_envelope_scheduling _ noteA 440 rfl (by decide), rfl, rfl, rfl, rfl⟩

theorem succ_mod_eq (i N : Nat) : (i % N + 1) % N = (i + 1) % N := by
  rcases N with _ | _ | n
  · simp [Nat.mod_zero]
  · simp [Nat.mod_one]
  · conv_rhs => rw [Nat.add_mod]
    rw [Nat.mod_eq_of_lt (show 1 < n + 2 by omega)]

theorem playArpNote_ok (note : Note) (f : ℚ) (hf : note.frequency = some f) (st : SynthState) :
    (playArpNote note st).2 = true ∧
    (playArpNote note st).1.pressedKeys = st.pressedKeys ∧
    (playArpNote note st).1.control = st.control ∧
    (playArpNote note st).1.currentNote = st.currentNote := by
  obtain ⟨hp1, hp2, hp3, _, _, _⟩ := createOscillator_preserves note st
  simp only [playArpNote, createOscillator_lookup note f hf st]
  exact ⟨trivial, hp1, hp2, hp3⟩

theorem arpTick_step (st : SynthState) (j : Nat)
    (ha : st.control.arp = true) (hk : 0 < st.pressedKeys.length)
    (hc : st.currentNote = some j) (hj : j < st.pressedKeys.length)
    (hf : ∀ k ∈ st.pressedKeys, k.frequency.isSome) :
    arpSelectedNote st = st.pressedKeys[j]? ∧
    (arpTick st).1.currentNote = some ((j + 1) % st.pressedKeys.length) ∧
    (arpTick st).1.pressedKeys = st.pressedKeys ∧
    (arpTick st).1.control = st.control := by
  have hsel : arpSelectedNote st = st.pressedKeys[j]? := by
    simp [arpSelectedNote, ha, hk, hc]
  have hget : st.pressedKeys[j]? = some (st.pressedKeys[j]) := List.getElem?_eq_getElem hj
  obtain ⟨fq, hfq⟩ := Option.isSome_iff_exists.mp (hf _ (List.getElem_mem hj))
  obtain ⟨hok, hkeys, hctl, hcur⟩ := playArpNote_ok (st.pressedKeys[j]) fq hfq st
  have htick : (arpTick st).1 = advanceCursor (playArpNote (st.pressedKeys[j]) st).1 := by
    simp [arpTick, ha, hk, hc, hget, hok]
  refine ⟨hsel, ?_, ?_, ?_⟩
  · rw [htick]
    simp only [advanceCursor, hcur, hc, hkeys, Option.getD_some]
    by_cases hw : j + 1 = st.pressedKeys.length
    · rw [if_pos hw, hw, Nat.mod_self]
    · rw [if_neg hw]
      have hlt : (j + 1) % st.pressedKeys.length = j + 1 := Nat.mod_eq_of_lt (by omega)
      rw [hlt]
  · rw [htick]
    simp only [advanceCursor]
    split <;> simp [hkeys]
  · rw [htick]
    simp only [advanceCursor]
    split <;> simp [hctl]

theorem arpTick_iter (st : SynthState)
    (ha : st.control.arp = true) (hk : 0 < st.pressedKeys.length)
    (hc : st.currentNote = some 0)
    (hf : ∀ k ∈ st.pressedKeys, k.frequency.isSome) :
    ∀ i, (ticksFrom st i).currentNote = some (i % st.pressedKeys.length) ∧
      (ticksFrom st i).pressedKeys = st.pressedKeys ∧
      (ticksFrom st i).control = st.control := by
  intro i
  induction i with
  | zero => exact ⟨by simp [ticksFrom, hc], rfl, rfl⟩
  | succ n ih =>
    obtain ⟨ic, ik, ictl⟩ := ih
    have hj : n % st.pressedKeys.length < st.pressedKeys.length := Nat.mod_lt _ hk
    obtain ⟨_, c2, c3, c4⟩ := arpTick_step (ticksFrom st n) (n % st.pressedKeys.length)
      (by rw [ictl]; exact ha) (by rw [ik]; exact hk) ic (by rw [ik]; exact hj)
      (by rw [ik]; exact hf)
    refine ⟨?_, ?_, ?_⟩
    · show (arpTick (ticksFrom st n)).1.currentNote = _
      rw [c2, ik, succ_mod_eq]
    · show (arpTick (ticksFrom st n)).1.pressedKeys = _
      rw [c3, ik]
    · show (arpTick (ticksFrom st n)).1.control = _
      rw [c4, ictl]

/-- C4: with arp enabled, the cursor at 0 and a non-empty held-note set of
size N whose notes all carry frequencies (the set unchanged across ticks —
clock runs alter no keys), the first N clock ticks select and trigger the held
notes in order, each exactly once, and the (N+1)th tick re-triggers the first
held note: the cursor advances round-robin, wrapping to 0 at the end. -/
theorem c4_arp_round_robin (st : SynthState) (N : Nat)
    (ha : st.control.arp = true) (hc : st.currentNote = some 0)
    (hN : st.pressedKeys.length = N) (hpos : 0 < N)
    (hf : ∀ k ∈ st.pressedKeys, k.frequency.isSome) :
    (List.range N).map (fun i => arpSelectedNote (ticksFrom st i)) = st.pressedKeys.map some ∧
    arpSelectedNote (ticksFrom st N) = st.pressedKeys[0]? := by
  have hk : 0 < st.pressedKeys.length := by omega
  have hiter := arpTick_iter st ha hk hc hf
  have hsel : ∀ i, arpSelectedNote (ticksFrom st i)
      = st.pressedKeys[(i % st.pressedKeys.length)]? := by
    intro i
    obtain ⟨ic, ik, ictl⟩ := hiter i
    simp [arpSelectedNote, ictl, ha, ik, hk, ic]
  constructor
  · refine List.ext_getElem (by simp [hN]) ?_
    intro i hi1 hi2
    simp only [List.getElem_map, List.getElem_range]
    have hiN : i < st.pressedKeys.length := by
      simp only [List.length_map, List.length_range] at hi1
      omega
    rw [hsel i, Nat.mod_eq_of_lt hiN, List.getElem?_eq_getElem hiN]
  · rw [hsel N, hN, Nat.mod_self]

/-- Witness for C4: arp on with two held notes; the first two ticks select
`noteA` then `noteB`, and the third selects `noteA` again. -/
theorem c4_witness :
    (run initState [SynthEvent.controlChange arpOnControl, SynthEvent.press noteA,
        SynthEvent.press noteB]).control.arp = true ∧
    (run initState [SynthEvent.controlChange arpOnControl, SynthEvent.press noteA,
        SynthEvent.press noteB]).currentNote = some 0 ∧
    (run initState [SynthEvent.controlChange arpOnControl, SynthEvent.press noteA,
        SynthEvent.press noteB]).pressedKeys.length = 2 ∧
    ((List.range 2).map (fun i => arpSelectedNote (ticksFrom (run initState
        [SynthEvent.controlChange arpOnControl, SynthEvent.press noteA,
         SynthEvent.press noteB]) i))
      = (run initState [SynthEvent.controlChange arpOnControl, SynthEvent.press noteA,
          SynthEvent.press noteB]).pressedKeys.map some ∧
     arpSelectedNote (ticksFrom (run initState
        [SynthEvent.controlChange arpOnControl, SynthEvent.press noteA,
         SynthEvent.press noteB]) 2)
      = (run initState [SynthEvent.controlChange arpOnControl, SynthEvent.press noteA,
          SynthEvent.press noteB]).pressedKeys[0]?) :=
  ⟨by decide, by decide, by decide,
    c4_arp_round_robin _ 2 (by decide) (by decide) (by decide) (by decide) (by decide)⟩

/-- C10: for a note with a registered voice, the only mutation performed by
`destroyOscillator` is appending the cancel-and-hold plus release ramp on that
voice's own VCA gain; the voice-map entry is retained (the lookup still yields
the same VCA), no oscillator is stopped or disconnected, and every other field
— other voices, held keys, shared nodes, parameters — is unchanged. -/
theorem c10_destroy_frame (st : SynthState) (note : Note) (v : Nat)
    (h : lookupVoice st.voices note.name = some v) :
    destroyOscillator note st
        = { st with sched := st.sched ++ destroySched v st.now st.envelopeRefCur.release } ∧
    lookupVoice (destroyOscillator note st).voices note.name = some v := by
  refine ⟨?_, ?_⟩ <;> simp [destroyOscillator_spec, h]

/-- Witness for C10 at a concrete state with one sounding voice. -/
theorem c10_witness :
    lookupVoice (run initState [SynthEvent.midiNoteOn noteA]).voices noteA.name = some 8 ∧
    (destroyOscillator noteA (run initState [SynthEvent.midiNoteOn noteA])
        = { run initState [SynthEvent.midiNoteOn noteA] with
            sched := (run initState [SynthEvent.midiNoteOn noteA]).sched ++
              destroySched 8 (run initState [SynthEvent.midiNoteOn noteA]).now
                (run initState [SynthEvent.midiNoteOn noteA]).envelopeRefCur.release } ∧
     lookupVoice (destroyOscillator noteA (run initState [SynthEvent.midiNoteOn noteA])).voices
        noteA.name = some 8) :=
  ⟨by decide, c10_destroy_frame _ noteA 8 (by decide)⟩

end HelloSynth
